import Mathlib

/-!
Shallow embedding of the carrosselflow core:

* the inline markup engine `renderFormattedText` (slide body formatting with
  `<b>…</b>` and `<mark>…</mark>` spans, split on literal newlines), and
* the Instagram carousel publishing workflow `publishCarouselToInstagram`
  (upload → per-image item container → carousel container → publish, with a
  sentinel mock account that short-circuits every remote call),

together with theorems checking the specification's claims about them.
-/

namespace Carrossel

/-! ## Inline markup engine (src: `renderFormattedText` in the slide component)

The source renders a string by first splitting on `'\n'`, then splitting each
line with the JS regex `/(<b>.*?<\/b>|<mark>.*?<\/mark>)/g` (a split that, due
to the capture group, keeps the matched separators and keeps empty fragments),
and finally classifying every fragment by `startsWith`/`endsWith` checks. -/

/-- A parsed unit of slide text: plain text, a `<b>` span (rendered extra-bold
in the accent color) or a `<mark>` span (rendered with a translucent accent
background). -/
inductive FormattedSegment where
  | plain (text : String)
  | bold (text : String)
  | highlight (text : String)
deriving Repr, DecidableEq

/-- The text carried by a segment. -/
def FormattedSegment.text : FormattedSegment → String
  | .plain t => t
  | .bold t => t
  | .highlight t => t

def bOpen : List Char := "<b>".data
def bClose : List Char := "</b>".data
def markOpen : List Char := "<mark>".data
def markClose : List Char := "</mark>".data

/-- JS regex `.` (no `s` flag): any character except a line terminator. -/
def jsDot (c : Char) : Bool :=
  !(c == '\n' || c == '\r' || c == '\u2028' || c == '\u2029')

/-- Non-greedy scan for the closing tag: `.*?close` starting at `s`.
Returns the characters consumed by `.*?` and the remainder after `close`. -/
def scanClose (close : List Char) : List Char → Option (List Char × List Char)
  | [] => none
  | c :: cs =>
    if close.isPrefixOf (c :: cs) then some ([], (c :: cs).drop close.length)
    else if jsDot c then
      match scanClose close cs with
      | some (content, rest) => some (c :: content, rest)
      | none => none
    else none

/-- Try to match `<mark>.*?</mark>` at the start of `s`. -/
def tryMarkAt (s : List Char) : Option (List Char × List Char) :=
  if markOpen.isPrefixOf s then
    match scanClose markClose (s.drop markOpen.length) with
    | some (content, rest) => some (markOpen ++ content ++ markClose, rest)
    | none => none
  else none

/-- Try to match the alternation `<b>.*?</b>|<mark>.*?</mark>` at the start of
`s` (the `<b>` alternative is tried first, as in the source regex). -/
def tryTagAt (s : List Char) : Option (List Char × List Char) :=
  if bOpen.isPrefixOf s then
    match scanClose bClose (s.drop bOpen.length) with
    | some (content, rest) => some (bOpen ++ content ++ bClose, rest)
    | none => tryMarkAt s
  else tryMarkAt s

/-- Leftmost match of the tag regex in `s`: returns the text before the match,
the match itself, and the remainder. -/
def findMatch : List Char → Option (List Char × List Char × List Char)
  | [] => none
  | c :: cs =>
    match tryTagAt (c :: cs) with
    | some (m, rest) => some ([], m, rest)
    | none =>
      match findMatch cs with
      | some (pre, m, rest) => some (c :: pre, m, rest)
      | none => none

/-- Fueled version of the JS `String.split` with a capturing group: fragments
between matches and the matches themselves, empty fragments included. -/
def splitTagsFuel : Nat → List Char → List (List Char)
  | 0, s => [s]
  | fuel + 1, s =>
    match findMatch s with
    | none => [s]
    | some (pre, m, rest) => pre :: m :: splitTagsFuel fuel rest

/-- Embeds `line.split(/(<b>.*?<\/b>|<mark>.*?<\/mark>)/g)`; every match is nonempty
so `s.length` steps of fuel always suffice. -/
def splitTags (s : List Char) : List (List Char) := splitTagsFuel s.length s

/-- Classification of one fragment, mirroring the source's
`startsWith('<b>') && endsWith('</b>')` / `startsWith('<mark>') &&
endsWith('</mark>')` checks and `slice(3, -4)` / `slice(6, -7)` extraction. -/
def classifyPart (part : List Char) : FormattedSegment :=
  if bOpen.isPrefixOf part && bClose.isSuffixOf part then
    .bold (String.mk ((part.drop bOpen.length).take
      (part.length - bOpen.length - bClose.length)))
  else if markOpen.isPrefixOf part && markClose.isSuffixOf part then
    .highlight (String.mk ((part.drop markOpen.length).take
      (part.length - markOpen.length - markClose.length)))
  else .plain (String.mk part)

/-- Segments produced for one line. -/
def lineSegments (line : List Char) : List FormattedSegment :=
  (splitTags line).map classifyPart

/-- Embeds `text.split('\n')` on the character list. -/
def splitLinesChars : List Char → List (List Char)
  | [] => [[]]
  | c :: cs =>
    if c = '\n' then [] :: splitLinesChars cs
    else
      match splitLinesChars cs with
      | [] => [[c]]
      | l :: ls => (c :: l) :: ls

/-- The markup engine: `if (!text) return null;` then one list of segments per
newline-separated line.  The source's `null` (render nothing) is modelled as
the empty list of lines. -/
def renderFormattedText (text : String) : List (List FormattedSegment) :=
  if text = "" then [] else (splitLinesChars text.data).map lineSegments

/-- Does `pat` occur as a contiguous run inside `s`? -/
def containsSeq (pat : List Char) : List Char → Bool
  | [] => pat.isPrefixOf []
  | c :: cs => pat.isPrefixOf (c :: cs) || containsSeq pat cs

/-- Does `s` contain an occurrence of any of the four tag literals? -/
def containsTag (s : List Char) : Bool :=
  containsSeq bOpen s || containsSeq bClose s ||
    containsSeq markOpen s || containsSeq markClose s

example : renderFormattedText "<mark>a</mark><b>b</b>" =
    [[FormattedSegment.plain "", FormattedSegment.highlight "a",
      FormattedSegment.plain "", FormattedSegment.bold "b",
      FormattedSegment.plain ""]] := by decide

example : renderFormattedText "a\nb" =
    [[FormattedSegment.plain "a"], [FormattedSegment.plain "b"]] := by decide

example : renderFormattedText "<b>oops" =
    [[FormattedSegment.plain "<b>oops"]] := by decide

example : renderFormattedText "<b>hi</b> there" =
    [[FormattedSegment.plain "", FormattedSegment.bold "hi",
      FormattedSegment.plain " there"]] := by decide

example : renderFormattedText "" = [] := by decide

example : renderFormattedText "<b>a\nb</b>" =
    [[FormattedSegment.plain "<b>a"], [FormattedSegment.plain "b</b>"]] := by
  decide

/-! ## Carousel publishing workflow (src: `services/meta.ts`)

`publishCarouselToInstagram` drives one publish run: simulated upload of every
blob (the hosting backend does not exist, so no network call happens there for
anyone), then container creation (single-image or carousel path), then the
publish call.  Each remote step short-circuits to a fabricated id when the
account id is the sentinel `MOCK_USER_ID`; otherwise it issues a real `fetch`
and throws the remote error message when the response carries an error payload.

The embedding makes the observable behavior explicit:

* remote responses are an environment `Env : Call → Except String String`
  (`.ok id` models `{ id }`, `.error m` models `{ error: { message: m } }`);
* the run produces a trace of `Event`s: every progress-callback invocation and
  every issued network call, in order;
* `Date.now()`/`Math.random()` fabricated ids and the randomized stand-in
  upload URL are modelled by a fresh-counter supply threaded through the run;
* a thrown `Error` is the `Except.error` result (the source's `try/catch`
  rethrows, so the caller observes exactly the first thrown message). -/

/-- Sentinel account id signalling simulation mode. -/
def MOCK_USER_ID : String := "123456789"

/-- The authenticated account, as in `types.ts`. -/
structure InstagramUser where
  id : String
  name : String
  username : String
  profile_picture_url : Option String := none
  accessToken : String
deriving Repr, DecidableEq

/-- A rendered slide image; the workflow only ever reads its size (for a log). -/
structure Blob where
  size : Nat
deriving Repr, DecidableEq

/-- One Graph-API request together with all parameters the source puts in the
query string. -/
inductive Call where
  | itemContainer (userId imageUrl accessToken caption : String)
      (isCarouselItem : Bool)
  | carouselContainer (userId : String) (childrenIds : List String)
      (accessToken caption : String)
  | publish (userId creationId accessToken : String)
deriving Repr, DecidableEq

/-- Observable events of a run, in order of occurrence. -/
inductive Event where
  | progress (msg : String)
  | fetch (call : Call)
deriving Repr, DecidableEq

instance {ε α : Type} [DecidableEq ε] [DecidableEq α] : DecidableEq (Except ε α)
  | Except.error a, Except.error b =>
    if h : a = b then .isTrue (congrArg Except.error h)
    else .isFalse fun hh => h (Except.error.inj hh)
  | Except.error _, Except.ok _ => .isFalse Except.noConfusion
  | Except.ok _, Except.error _ => .isFalse Except.noConfusion
  | Except.ok a, Except.ok b =>
    if h : a = b then .isTrue (congrArg Except.ok h)
    else .isFalse fun hh => h (Except.ok.inj hh)

/-- The remote side: what each issued call would answer. -/
def Env : Type := Call → Except String String

/-- The network calls contained in a trace, in order. -/
def fetchCalls (events : List Event) : List Call :=
  events.filterMap fun e =>
    match e with
    | .fetch c => some c
    | .progress _ => none

/-- The progress notifications contained in a trace, in order. -/
def progressMsgs (events : List Event) : List String :=
  events.filterMap fun e =>
    match e with
    | .progress m => some m
    | .fetch _ => none

/-- Embeds `uploadImageToPublicServer`: the simulated hosting step.  No fetch is
issued and no failure is possible; the stand-in public URL's `Math.random()`
query parameter is modelled by the counter draw. -/
def uploadImageToPublicServer (ctr : Nat) : String :=
  "https://images.unsplash.com/photo-1611162617474-5b21e879e113?w=1080&q=80&random="
    ++ toString ctr

/-- Embeds `createItemContainer`: one media container (carousel item, or single image
with caption).  Mock accounts short-circuit to a fabricated id. -/
def createItemContainer (env : Env) (userId imageUrl accessToken caption : String)
    (isCarouselItem : Bool) (ctr : Nat) :
    List Event × Except String String × Nat :=
  if userId = MOCK_USER_ID then
    ([], Except.ok ("item_container_" ++ toString ctr), ctr + 1)
  else
    let call := Call.itemContainer userId imageUrl accessToken caption isCarouselItem
    ([Event.fetch call], env call, ctr)

/-- Embeds `createCarouselContainer`: the carousel root referencing all child ids. -/
def createCarouselContainer (env : Env) (userId : String) (childrenIds : List String)
    (accessToken caption : String) (ctr : Nat) :
    List Event × Except String String × Nat :=
  if userId = MOCK_USER_ID then
    ([], Except.ok ("carousel_container_" ++ toString ctr), ctr + 1)
  else
    let call := Call.carouselContainer userId childrenIds accessToken caption
    ([Event.fetch call], env call, ctr)

/-- Embeds `publishMedia`: the finalize call on the creation id. -/
def publishMedia (env : Env) (userId creationId accessToken : String) (ctr : Nat) :
    List Event × Except String String × Nat :=
  if userId = MOCK_USER_ID then
    ([], Except.ok ("published_media_" ++ toString ctr), ctr + 1)
  else
    let call := Call.publish userId creationId accessToken
    ([Event.fetch call], env call, ctr)

/-- The progress message emitted before uploading slide `i` of `total`. -/
def uploadMsg (i total : Nat) : String :=
  "Uploading slide " ++ toString i ++ " of " ++ toString total ++ "..."

/-- The progress message emitted before creating the item container for
slide `i` on the carousel path. -/
def prepMsg (i : Nat) : String :=
  "Preparing slide " ++ toString i ++ " for Instagram..."

/-- Step 1 of `publishCarouselToInstagram`: the sequential upload loop.
Returns its events, the collected image URLs (in input order) and the counter. -/
def uploadLoop : List Blob → Nat → Nat → Nat → List Event × List String × Nat
  | [], _, _, ctr => ([], [], ctr)
  | _ :: rest, i, total, ctr =>
    let ev := Event.progress (uploadMsg (i + 1) total)
    let url := uploadImageToPublicServer ctr
    let (evs, urls, ctr') := uploadLoop rest (i + 1) total (ctr + 1)
    (ev :: evs, url :: urls, ctr')

/-- The carousel-path loop of step 2: one item container per image URL, in
order, collecting ids; the first thrown error aborts the loop. -/
def itemLoop (env : Env) (userId accessToken : String) :
    List String → Nat → Nat → List Event × Except String (List String) × Nat
  | [], _, ctr => ([], Except.ok [], ctr)
  | url :: rest, i, ctr =>
    let ev := Event.progress (prepMsg (i + 1))
    let (evs1, res1, ctr1) := createItemContainer env userId url accessToken "" true ctr
    match res1 with
    | Except.error m => (ev :: evs1, Except.error m, ctr1)
    | Except.ok cid =>
      let (evs2, res2, ctr2) := itemLoop env userId accessToken rest (i + 1) ctr1
      match res2 with
      | Except.error m => (ev :: evs1 ++ evs2, Except.error m, ctr2)
      | Except.ok ids => (ev :: evs1 ++ evs2, Except.ok (cid :: ids), ctr2)

/-- Embeds `publishCarouselToInstagram`: the full run.  Returns the event trace and
the run's result (the published media id, or the first thrown error message). -/
def publishCarouselToInstagram (env : Env) (user : InstagramUser)
    (slideBlobs : List Blob) (caption : String) :
    List Event × Except String String :=
  let (upEvs, imageUrls, ctr0) := uploadLoop slideBlobs 0 slideBlobs.length 0
  if imageUrls.length = 1 then
    let ev := Event.progress "Creating media container..."
    let (evs1, res1, ctr1) :=
      createItemContainer env user.id (imageUrls.headD "") user.accessToken caption false ctr0
    match res1 with
    | Except.error m => (upEvs ++ ev :: evs1, Except.error m)
    | Except.ok creationId =>
      let ev2 := Event.progress "Finalizing publication..."
      let (evs2, res2, _) := publishMedia env user.id creationId user.accessToken ctr1
      (upEvs ++ ev :: evs1 ++ ev2 :: evs2, res2)
  else
    let (itEvs, resIds, ctr1) := itemLoop env user.id user.accessToken imageUrls 0 ctr0
    match resIds with
    | Except.error m => (upEvs ++ itEvs, Except.error m)
    | Except.ok ids =>
      let ev := Event.progress "Creating carousel object..."
      let (evs1, res1, ctr2) :=
        createCarouselContainer env user.id ids user.accessToken caption ctr1
      match res1 with
      | Except.error m => (upEvs ++ itEvs ++ ev :: evs1, Except.error m)
      | Except.ok creationId =>
        let ev2 := Event.progress "Finalizing publication..."
        let (evs2, res2, _) := publishMedia env user.id creationId user.accessToken ctr2
        (upEvs ++ itEvs ++ ev :: evs1 ++ ev2 :: evs2, res2)

/-! Expected shapes of the traces, used to state the claims. -/

/-- The upload-phase events for `n` assets (all progress, never a fetch). -/
def expectedUploadEvents : Nat → Nat → Nat → List Event
  | 0, _, _ => []
  | n + 1, i, total =>
    Event.progress (uploadMsg (i + 1) total) :: expectedUploadEvents n (i + 1) total

/-- The stand-in public URLs produced for `n` assets from counter `ctr`. -/
def expectedUrls : Nat → Nat → List String
  | 0, _ => []
  | n + 1, ctr => uploadImageToPublicServer ctr :: expectedUrls n (ctr + 1)

/-- The item-container call issued for one uploaded URL on the carousel path
(no caption, flagged as carousel item). -/
def itemCall (userId imageUrl accessToken : String) : Call :=
  Call.itemContainer userId imageUrl accessToken "" true

/-- Carousel-path item-loop events for a real account: progress then fetch,
per URL in order. -/
def realItemEvents (userId accessToken : String) : List String → Nat → List Event
  | [], _ => []
  | u :: rest, i =>
    Event.progress (prepMsg (i + 1)) :: Event.fetch (itemCall userId u accessToken)
      :: realItemEvents userId accessToken rest (i + 1)

/-- Carousel-path item-loop events for the mock account: progress only. -/
def mockItemEvents : List String → Nat → List Event
  | [], _ => []
  | _ :: rest, i => Event.progress (prepMsg (i + 1)) :: mockItemEvents rest (i + 1)

/-- The fabricated item-container ids for `n` URLs from counter `ctr`. -/
def mockItemIds : Nat → Nat → List String
  | 0, _ => []
  | n + 1, ctr => ("item_container_" ++ toString ctr) :: mockItemIds n (ctr + 1)

/-- The item-container calls a real-account carousel run issues, in order. -/
def expectedItemCalls (userId accessToken : String) (urls : List String) : List Call :=
  urls.map fun u => itemCall userId u accessToken

/-- Every call in `calls` got a successful response from `env`. -/
def TraceOk (env : Env) (calls : List Call) : Prop :=
  ∀ c ∈ calls, ∃ id, env c = Except.ok id

/-- Failure discipline of a partial run: a successful result means every
issued call succeeded; an error result means the trace ends at the single
failing call, whose remote message is surfaced verbatim, and every call
before it succeeded. -/
def RunSpec {α : Type} (env : Env) (events : List Event) (res : Except String α) : Prop :=
  match res with
  | Except.ok _ => TraceOk env (fetchCalls events)
  | Except.error m =>
      ∃ evs c, events = evs ++ [Event.fetch c] ∧ env c = Except.error m ∧
        TraceOk env (fetchCalls evs)

/-! Concrete fixtures used to evaluate the theorems on explicit inputs. -/

/-- A remote that answers every call with the same fabricated id. -/
def respId0 : Call → String := fun _ => "cid"

/-- An all-successful remote environment. -/
def envOk : Env := fun c => Except.ok (respId0 c)

/-- A remote that rejects every call with a structured error payload. -/
def envReject : Env := fun _ => Except.error "Invalid parameter"

/-- A connected (non-sentinel) account. -/
def userReal : InstagramUser :=
  { id := "17841400000000000", name := "Real User", username := "real_user",
    accessToken := "tok" }

/-- The simulated demo account returned by the mock login. -/
def mockUser : InstagramUser :=
  { id := MOCK_USER_ID, name := "Demo User", username := "demo_creator",
    accessToken := "mock_token_123" }

/-! ## Lemmas about the markup engine -/

theorem scanClose_decomp (close : List Char) :
    ∀ s content rest, scanClose close s = some (content, rest) →
      s = content ++ close ++ rest := by
  intro s
  induction s with
  | nil => intro content rest h; simp [scanClose] at h
  | cons c cs ih =>
    intro content rest h
    by_cases hp : close.isPrefixOf (c :: cs)
    · simp only [scanClose, if_pos hp, Option.some.injEq, Prod.mk.injEq] at h
      obtain ⟨h1, h2⟩ := h
      subst h1
      subst h2
      obtain ⟨t, ht⟩ := List.isPrefixOf_iff_prefix.mp hp
      conv_lhs => rw [← ht]
      simp [← ht, List.drop_left]
    · by_cases hd : jsDot c
      · simp only [scanClose, if_neg hp, if_pos hd] at h
        cases hsc : scanClose close cs with
        | none => rw [hsc] at h; simp at h
        | some p =>
          obtain ⟨content', rest'⟩ := p
          rw [hsc] at h
          simp only [Option.some.injEq, Prod.mk.injEq] at h
          obtain ⟨h1, h2⟩ := h
          subst h1
          subst h2
          have hcs := ih content' rest' hsc
          simp [hcs]
      · simp only [scanClose, if_neg hp, if_neg hd] at h
        exact Option.noConfusion h

theorem tryMarkAt_decomp (s m rest : List Char) (h : tryMarkAt s = some (m, rest)) :
    s = m ++ rest ∧ markOpen <+: m := by
  by_cases hp : markOpen.isPrefixOf s
  · rw [tryMarkAt, if_pos hp] at h
    cases hsc : scanClose markClose (s.drop markOpen.length) with
    | none => rw [hsc] at h; simp at h
    | some p =>
      obtain ⟨content, rest'⟩ := p
      rw [hsc] at h
      simp only [Option.some.injEq, Prod.mk.injEq] at h
      obtain ⟨h1, h2⟩ := h
      subst h1
      subst h2
      obtain ⟨t, ht⟩ := List.isPrefixOf_iff_prefix.mp hp
      have hdrop : s.drop markOpen.length = t := by rw [← ht]; simp [List.drop_left]
      have hc := scanClose_decomp markClose _ _ _ hsc
      rw [hdrop] at hc
      constructor
      · rw [← ht, hc]; simp
      · exact ⟨content ++ markClose, by simp⟩
  · rw [tryMarkAt, if_neg hp] at h
    simp at h

theorem tryTagAt_decomp (s m rest : List Char) (h : tryTagAt s = some (m, rest)) :
    s = m ++ rest ∧ (bOpen <+: m ∨ markOpen <+: m) := by
  by_cases hp : bOpen.isPrefixOf s
  · rw [tryTagAt, if_pos hp] at h
    cases hsc : scanClose bClose (s.drop bOpen.length) with
    | none =>
      rw [hsc] at h
      have := tryMarkAt_decomp s m rest h
      exact ⟨this.1, Or.inr this.2⟩
    | some p =>
      obtain ⟨content, rest'⟩ := p
      rw [hsc] at h
      simp only [Option.some.injEq, Prod.mk.injEq] at h
      obtain ⟨h1, h2⟩ := h
      subst h1
      subst h2
      obtain ⟨t, ht⟩ := List.isPrefixOf_iff_prefix.mp hp
      have hdrop : s.drop bOpen.length = t := by rw [← ht]; simp [List.drop_left]
      have hc := scanClose_decomp bClose _ _ _ hsc
      rw [hdrop] at hc
      constructor
      · rw [← ht, hc]; simp
      · exact Or.inl ⟨content ++ bClose, by simp⟩
  · rw [tryTagAt, if_neg hp] at h
    have := tryMarkAt_decomp s m rest h
    exact ⟨this.1, Or.inr this.2⟩

theorem findMatch_decomp :
    ∀ s pre m rest, findMatch s = some (pre, m, rest) →
      s = pre ++ m ++ rest ∧ (bOpen <+: m ∨ markOpen <+: m) := by
  intro s
  induction s with
  | nil => intro pre m rest h; simp [findMatch] at h
  | cons c cs ih =>
    intro pre m rest h
    rw [findMatch] at h
    cases ht : tryTagAt (c :: cs) with
    | some p =>
      obtain ⟨m', rest'⟩ := p
      rw [ht] at h
      simp only [Option.some.injEq, Prod.mk.injEq] at h
      obtain ⟨h1, h2, h3⟩ := h
      subst h1
      subst h2
      subst h3
      have := tryTagAt_decomp _ _ _ ht
      exact ⟨by simpa using this.1, this.2⟩
    | none =>
      rw [ht] at h
      cases hf : findMatch cs with
      | none => rw [hf] at h; simp at h
      | some q =>
        obtain ⟨pre', m', rest'⟩ := q
        rw [hf] at h
        simp only [Option.some.injEq, Prod.mk.injEq] at h
        obtain ⟨h1, h2, h3⟩ := h
        subst h1
        subst h2
        subst h3
        have := ih _ _ _ hf
        exact ⟨by simp [this.1], this.2⟩

theorem splitTagsFuel_of_none {s : List Char} (h : findMatch s = none) :
    ∀ fuel, splitTagsFuel fuel s = [s] := by
  intro fuel
  cases fuel with
  | zero => rfl
  | succ n => simp [splitTagsFuel, h]

theorem splitTagsFuel_parts_subset :
    ∀ fuel s part, part ∈ splitTagsFuel fuel s → part ⊆ s := by
  intro fuel
  induction fuel with
  | zero =>
    intro s part h
    simp [splitTagsFuel] at h
    subst h
    exact List.Subset.refl _
  | succ n ih =>
    intro s part h
    rw [splitTagsFuel] at h
    cases hf : findMatch s with
    | none =>
      rw [hf] at h
      simp at h
      subst h
      exact List.Subset.refl _
    | some q =>
      obtain ⟨pre, m, rest⟩ := q
      rw [hf] at h
      have hdec := (findMatch_decomp _ _ _ _ hf).1
      simp only [List.mem_cons] at h
      rcases h with h | h | h
      · subst h; intro a ha; rw [hdec]; simp [ha]
      · subst h; intro a ha; rw [hdec]; simp [ha]
      · intro a ha
        have := ih rest part h ha
        rw [hdec]
        simp [this]

theorem containsSeq_of_isPrefixOf {pat s : List Char} (h : pat.isPrefixOf s = true) :
    containsSeq pat s = true := by
  cases s with
  | nil => simpa [containsSeq] using h
  | cons c cs => simp [containsSeq, h]

theorem containsSeq_intro {pat s : List Char} (h : pat <:+: s) :
    containsSeq pat s = true := by
  induction s with
  | nil =>
    obtain ⟨u, v, huv⟩ := h
    obtain ⟨hup, hv⟩ := List.append_eq_nil.mp huv
    obtain ⟨hu, hp0⟩ := List.append_eq_nil.mp hup
    subst hp0
    simp [containsSeq, List.isPrefixOf]
  | cons c cs ih =>
    obtain ⟨u, v, huv⟩ := h
    cases u with
    | nil =>
      have : pat <+: c :: cs := ⟨v, by simpa using huv⟩
      simp [containsSeq, List.isPrefixOf_iff_prefix.mpr this]
    | cons a u' =>
      simp only [List.cons_append, List.cons.injEq] at huv
      have : pat <:+: cs := ⟨u', v, huv.2⟩
      simp [containsSeq, ih this]

theorem containsSeq_elim {pat s : List Char} (h : containsSeq pat s = true) :
    pat <:+: s := by
  induction s with
  | nil =>
    simp only [containsSeq] at h
    have := List.isPrefixOf_iff_prefix.mp h
    have hnil : pat = [] := List.prefix_nil.mp this
    exact ⟨[], [], by simp [hnil]⟩
  | cons c cs ih =>
    simp only [containsSeq, Bool.or_eq_true] at h
    rcases h with h | h
    · obtain ⟨t, ht⟩ := List.isPrefixOf_iff_prefix.mp h
      exact ⟨[], t, by simpa using ht⟩
    · exact List.infix_cons (ih h)

theorem findMatch_none_of_no_tags {s : List Char}
    (hb : containsSeq bOpen s = false) (hm : containsSeq markOpen s = false) :
    findMatch s = none := by
  cases hf : findMatch s with
  | none => rfl
  | some q =>
    obtain ⟨pre, m, rest⟩ := q
    obtain ⟨hdec, hopen⟩ := findMatch_decomp _ _ _ _ hf
    exfalso
    rcases hopen with ⟨t, ht⟩ | ⟨t, ht⟩
    · have : bOpen <:+: s := ⟨pre, t ++ rest, by rw [hdec, ← ht]; simp⟩
      rw [containsSeq_intro this] at hb
      exact Bool.true_eq_false.mp hb
    · have : markOpen <:+: s := ⟨pre, t ++ rest, by rw [hdec, ← ht]; simp⟩
      rw [containsSeq_intro this] at hm
      exact Bool.true_eq_false.mp hm

theorem classifyPart_plain_of_no_tags {part : List Char}
    (hb : containsSeq bOpen part = false) (hm : containsSeq markOpen part = false) :
    classifyPart part = .plain (String.mk part) := by
  have hb' : bOpen.isPrefixOf part = false := by
    cases hbp : bOpen.isPrefixOf part with
    | false => rfl
    | true => rw [containsSeq_of_isPrefixOf hbp] at hb; exact absurd hb (by simp)
  have hm' : markOpen.isPrefixOf part = false := by
    cases hmp : markOpen.isPrefixOf part with
    | false => rfl
    | true => rw [containsSeq_of_isPrefixOf hmp] at hm; exact absurd hm (by simp)
  rw [classifyPart]
  simp [hb', hm']

theorem splitLinesChars_ne_nil : ∀ s, splitLinesChars s ≠ [] := by
  intro s
  cases s with
  | nil => simp [splitLinesChars]
  | cons c cs =>
    rw [splitLinesChars]
    by_cases h : c = '\n'
    · simp [h]
    · rw [if_neg h]
      cases hs : splitLinesChars cs <;> simp

theorem splitLinesChars_shape :
    ∀ s, ∃ l ls, splitLinesChars s = l :: ls ∧ l <+: s ∧ ∀ x ∈ ls, x <:+: s := by
  intro s
  induction s with
  | nil => exact ⟨[], [], rfl, List.nil_prefix, by simp⟩
  | cons c cs ih =>
    obtain ⟨l, ls, heq, hpre, hmem⟩ := ih
    by_cases h : c = '\n'
    · refine ⟨[], splitLinesChars cs, by simp [splitLinesChars, h], List.nil_prefix, ?_⟩
      intro x hx
      rw [heq] at hx
      rcases List.mem_cons.mp hx with hx | hx
      · subst hx
        obtain ⟨t, ht⟩ := hpre
        exact List.infix_cons ⟨[], t, by simpa using ht⟩
      · exact List.infix_cons (hmem x hx)
    · refine ⟨c :: l, ls, ?_, ?_, ?_⟩
      · rw [splitLinesChars, if_neg h, heq]
      · obtain ⟨t, ht⟩ := hpre
        exact ⟨t, by simp [ht]⟩
      · intro x hx
        exact List.infix_cons (hmem x hx)

theorem mem_splitLinesChars_contig {s line : List Char}
    (h : line ∈ splitLinesChars s) : line <:+: s := by
  obtain ⟨l, ls, heq, hpre, hmem⟩ := splitLinesChars_shape s
  rw [heq] at h
  rcases List.mem_cons.mp h with h | h
  · subst h
    obtain ⟨t, ht⟩ := hpre
    exact ⟨[], t, by simpa using ht⟩
  · exact hmem line h

theorem splitLinesChars_no_newline :
    ∀ s line, line ∈ splitLinesChars s → '\n' ∉ line := by
  intro s
  induction s with
  | nil =>
    intro line h
    simp [splitLinesChars] at h
    subst h
    simp
  | cons c cs ih =>
    intro line h
    rw [splitLinesChars] at h
    by_cases hc : c = '\n'
    · rw [if_pos hc] at h
      rcases List.mem_cons.mp h with h | h
      · subst h; simp
      · exact ih line h
    · rw [if_neg hc] at h
      cases hs : splitLinesChars cs with
      | nil => exact absurd hs (splitLinesChars_ne_nil cs)
      | cons l ls =>
        rw [hs] at h
        rcases List.mem_cons.mp h with h | h
        · subst h
          intro hmem
          rcases List.mem_cons.mp hmem with hmem | hmem
          · exact hc hmem.symm
          · exact ih l (by rw [hs]; exact List.mem_cons_self l ls) hmem
        · exact ih line (by rw [hs]; exact List.mem_cons_of_mem l h)

theorem classifyPart_text_subset (part : List Char) :
    (classifyPart part).text.data ⊆ part := by
  rw [classifyPart]
  by_cases h1 : bOpen.isPrefixOf part && bClose.isSuffixOf part
  · rw [if_pos h1]
    intro a ha
    exact List.drop_subset _ _ (List.take_subset _ _ ha)
  · rw [if_neg h1]
    by_cases h2 : markOpen.isPrefixOf part && markClose.isSuffixOf part
    · rw [if_pos h2]
      intro a ha
      exact List.drop_subset _ _ (List.take_subset _ _ ha)
    · rw [if_neg h2]
      exact fun a ha => ha

theorem containsTag_false_bOpen {s : List Char} (h : containsTag s = false) :
    containsSeq bOpen s = false := by
  cases hb : containsSeq bOpen s with
  | false => rfl
  | true => rw [containsTag, hb] at h; simp at h

theorem containsTag_false_markOpen {s : List Char} (h : containsTag s = false) :
    containsSeq markOpen s = false := by
  cases hb : containsSeq markOpen s with
  | false => rfl
  | true => rw [containsTag, hb] at h; simp at h

theorem containsSeq_false_of_line {s line pat : List Char}
    (hline : line ∈ splitLinesChars s) (hs : containsSeq pat s = false) :
    containsSeq pat line = false := by
  cases hpl : containsSeq pat line with
  | false => rfl
  | true =>
    obtain ⟨a, b, hab⟩ := containsSeq_elim hpl
    obtain ⟨p, q, hpq⟩ := mem_splitLinesChars_contig hline
    have : pat <:+: s := ⟨p ++ a, b ++ q, by rw [← hpq, ← hab]; simp⟩
    rw [containsSeq_intro this] at hs
    exact absurd hs (by simp)

theorem lineSegments_plain_of_no_tags {line : List Char}
    (hb : containsSeq bOpen line = false) (hm : containsSeq markOpen line = false) :
    lineSegments line = [.plain (String.mk line)] := by
  have hf : findMatch line = none := findMatch_none_of_no_tags hb hm
  rw [lineSegments, splitTags, splitTagsFuel_of_none hf]
  simp [classifyPart_plain_of_no_tags hb hm]

/-! ## Markup engine claims -/

/-- C5 (counterexample): on `"<mark>a</mark><b>b</b>"` the engine's output for
the line is NOT just `[Highlight "a", Bold "b"]` — the capture-group split
keeps empty fragments, which surface as (empty) plain-text segments. -/
theorem c5_counterexample :
    renderFormattedText "<mark>a</mark><b>b</b>" ≠
      [[FormattedSegment.highlight "a", FormattedSegment.bold "b"]] := by decide

/-- C5 (amended): for `"<mark>a</mark><b>b</b>"` the output line is exactly
`[Plain "", Highlight "a", Plain "", Bold "b", Plain ""]`: adjacent tags with
no gap produce empty plain-text segments before, between and after the two
styled segments (each rendered as an empty span with no visible text); the
styled segments are `Highlight "a"` then `Bold "b"`, in that order. -/
theorem c5_adjacent_tags :
    renderFormattedText "<mark>a</mark><b>b</b>" =
      [[FormattedSegment.plain "", FormattedSegment.highlight "a",
        FormattedSegment.plain "", FormattedSegment.bold "b",
        FormattedSegment.plain ""]] := by decide

/-- C6 (counterexample): the empty string contains no tag occurrence and
splits into the single line `""`, yet the engine returns no line at all
(`if (!text) return null`), not one line with one empty plain segment. -/
theorem c6_counterexample :
    containsTag "".data = false ∧ splitLinesChars "".data = [[]] ∧
      renderFormattedText "" ≠ [[FormattedSegment.plain ""]] := by decide

/-- C6 (amended): for every NON-EMPTY input string containing no tag
occurrence, the engine splits on the literal newline and returns, per line,
exactly one plain-text segment equal to that line; in particular `"a\nb"`
yields exactly the two lines `["a"]` and `["b"]`. -/
theorem c6_no_tags_plain_lines :
    (∀ s : String, s ≠ "" → containsTag s.data = false →
        renderFormattedText s =
          (splitLinesChars s.data).map fun line =>
            [FormattedSegment.plain (String.mk line)])
    ∧ renderFormattedText "a\nb" =
        [[FormattedSegment.plain "a"], [FormattedSegment.plain "b"]] := by
  constructor
  · intro s hs htag
    rw [renderFormattedText, if_neg hs]
    apply List.map_congr_left
    intro line hline
    have hb := containsSeq_false_of_line hline (containsTag_false_bOpen htag)
    have hm := containsSeq_false_of_line hline (containsTag_false_markOpen htag)
    exact lineSegments_plain_of_no_tags hb hm
  · decide

theorem c6_witness :
    ("a\nb" ≠ "") ∧ containsTag "a\nb".data = false ∧
      renderFormattedText "a\nb" =
        (splitLinesChars "a\nb".data).map fun line =>
          [FormattedSegment.plain (String.mk line)] :=
  ⟨by decide, by decide, c6_no_tags_plain_lines.1 "a\nb" (by decide) (by decide)⟩

/-- C7: the engine is total (never an error: the embedding is a total
function, mirroring that the source's fragment classification covers every
fragment with a plain-text fallback) and produces exactly one segment list
per newline-separated line for every non-empty input; the unmatched tag
`"<b>oops"` degrades to one literal plain-text segment. -/
theorem c7_malformed_degrades_to_plain :
    renderFormattedText "<b>oops" = [[FormattedSegment.plain "<b>oops"]]
    ∧ ∀ s : String, s ≠ "" →
        (renderFormattedText s).length = (splitLinesChars s.data).length := by
  constructor
  · decide
  · intro s hs
    rw [renderFormattedText, if_neg hs]
    simp

theorem c7_witness : ("<b>hi" ≠ "") ∧
    (renderFormattedText "<b>hi").length = (splitLinesChars "<b>hi".data).length :=
  ⟨by decide, c7_malformed_degrades_to_plain.2 "<b>hi" (by decide)⟩

/-- C9: a formatting tag never spans a line break — splitting on `'\n'`
happens before tag matching, so no produced segment (of any kind) ever
contains a newline character, and an opening tag whose closing tag sits
beyond a newline surfaces as plain text on both sides, as the concrete input
`"<b>a\nb</b>"` shows. -/
theorem c9_tags_never_span_newline :
    (∀ s : String, ∀ line ∈ renderFormattedText s, ∀ seg ∈ line,
        '\n' ∉ seg.text.data)
    ∧ renderFormattedText "<b>a\nb</b>" =
        [[FormattedSegment.plain "<b>a"], [FormattedSegment.plain "b</b>"]] := by
  constructor
  · intro s line hline seg hseg hmem
    by_cases hs : s = ""
    · rw [renderFormattedText, if_pos hs] at hline
      simp at hline
    · rw [renderFormattedText, if_neg hs] at hline
      obtain ⟨rawLine, hraw, hmap⟩ := List.mem_map.mp hline
      subst hmap
      rw [lineSegments] at hseg
      obtain ⟨part, hpart, hclass⟩ := List.mem_map.mp hseg
      subst hclass
      rw [splitTags] at hpart
      have h1 := classifyPart_text_subset part hmem
      have h2 := splitTagsFuel_parts_subset _ _ _ hpart h1
      exact splitLinesChars_no_newline _ _ hraw h2
  · decide

theorem c9_witness :
    ([FormattedSegment.plain "x"] ∈ renderFormattedText "x") ∧
      (FormattedSegment.plain "x") ∈ [FormattedSegment.plain "x"] ∧
      '\n' ∉ (FormattedSegment.plain "x").text.data :=
  ⟨by decide, by decide,
    c9_tags_never_span_newline.1 "x" [FormattedSegment.plain "x"] (by decide)
      (FormattedSegment.plain "x") (by decide)⟩

/-- C10: the empty string produces no lines at all, and it is the only such
input — every non-empty input yields at least one line. -/
theorem c10_empty_input_no_lines :
    renderFormattedText "" = [] ∧
      ∀ s : String, s ≠ "" → renderFormattedText s ≠ [] := by
  refine ⟨by decide, ?_⟩
  intro s hs
  rw [renderFormattedText, if_neg hs]
  intro hmap
  exact splitLinesChars_ne_nil _ (List.map_eq_nil_iff.mp hmap)

theorem c10_witness : ("a" ≠ "") ∧ renderFormattedText "a" ≠ [] :=
  ⟨by decide, c10_empty_input_no_lines.2 "a" (by decide)⟩

/-! ## Lemmas about the publishing workflow -/

theorem expectedUrls_length : ∀ n ctr, (expectedUrls n ctr).length = n := by
  intro n
  induction n with
  | zero => intro ctr; rfl
  | succ k ih => intro ctr; simp [expectedUrls, ih]

theorem uploadLoop_eq :
    ∀ (blobs : List Blob) (i total ctr : Nat),
      uploadLoop blobs i total ctr =
        (expectedUploadEvents blobs.length i total,
         expectedUrls blobs.length ctr, ctr + blobs.length) := by
  intro blobs
  induction blobs with
  | nil => intro i total ctr; simp [uploadLoop, expectedUploadEvents, expectedUrls]
  | cons b rest ih =>
    intro i total ctr
    simp [uploadLoop, expectedUploadEvents, expectedUrls, ih]
    omega

theorem itemLoop_real (env : Env) (respId : Call → String)
    (userId accessToken : String)
    (huid : userId ≠ MOCK_USER_ID) (henv : ∀ c, env c = Except.ok (respId c)) :
    ∀ (urls : List String) (i ctr : Nat),
      itemLoop env userId accessToken urls i ctr =
        (realItemEvents userId accessToken urls i,
         Except.ok (urls.map fun u => respId (itemCall userId u accessToken)), ctr) := by
  intro urls
  induction urls with
  | nil => intro i ctr; simp [itemLoop, realItemEvents]
  | cons u rest ih =>
    intro i ctr
    simp [itemLoop, createItemContainer, huid, henv, realItemEvents, itemCall, ih]

theorem itemLoop_mock (env : Env) (accessToken : String) :
    ∀ (urls : List String) (i ctr : Nat),
      itemLoop env MOCK_USER_ID accessToken urls i ctr =
        (mockItemEvents urls i, Except.ok (mockItemIds urls.length ctr),
         ctr + urls.length) := by
  intro urls
  induction urls with
  | nil => intro i ctr; simp [itemLoop, mockItemEvents, mockItemIds]
  | cons u rest ih =>
    intro i ctr
    simp [itemLoop, createItemContainer, mockItemEvents, mockItemIds, ih]
    omega

theorem fetchCalls_append (a b : List Event) :
    fetchCalls (a ++ b) = fetchCalls a ++ fetchCalls b := by
  simp [fetchCalls, List.filterMap_append]

theorem progressMsgs_append (a b : List Event) :
    progressMsgs (a ++ b) = progressMsgs a ++ progressMsgs b := by
  simp [progressMsgs, List.filterMap_append]

theorem fetchCalls_expectedUploadEvents :
    ∀ n i total, fetchCalls (expectedUploadEvents n i total) = [] := by
  intro n
  induction n with
  | zero => intro i total; rfl
  | succ k ih => intro i total; simp [expectedUploadEvents, fetchCalls] at ih ⊢; exact ih _ _

theorem fetchCalls_mockItemEvents :
    ∀ urls i, fetchCalls (mockItemEvents urls i) = [] := by
  intro urls
  induction urls with
  | nil => intro i; rfl
  | cons u rest ih => intro i; simp [mockItemEvents, fetchCalls] at ih ⊢; exact ih _

theorem fetchCalls_realItemEvents (userId accessToken : String) :
    ∀ urls i, fetchCalls (realItemEvents userId accessToken urls i) =
      expectedItemCalls userId accessToken urls := by
  intro urls
  induction urls with
  | nil => intro i; rfl
  | cons u rest ih =>
    intro i
    simp [realItemEvents, fetchCalls, expectedItemCalls] at ih ⊢
    exact ih _

theorem progressMsgs_realItemEvents_eq_mock (userId accessToken : String) :
    ∀ urls i, progressMsgs (realItemEvents userId accessToken urls i) =
      progressMsgs (mockItemEvents urls i) := by
  intro urls
  induction urls with
  | nil => intro i; rfl
  | cons u rest ih =>
    intro i
    simp [realItemEvents, mockItemEvents, progressMsgs] at ih ⊢
    exact ih _

theorem run_real_single (env : Env) (respId : Call → String) (user : InstagramUser)
    (blobs : List Blob) (caption : String)
    (hreal : user.id ≠ MOCK_USER_ID) (henv : ∀ c, env c = Except.ok (respId c))
    (h1 : blobs.length = 1) :
    publishCarouselToInstagram env user blobs caption =
      (expectedUploadEvents 1 0 1 ++
        Event.progress "Creating media container..." ::
        Event.fetch (Call.itemContainer user.id (uploadImageToPublicServer 0)
          user.accessToken caption false) ::
        Event.progress "Finalizing publication..." ::
        [Event.fetch (Call.publish user.id
          (respId (Call.itemContainer user.id (uploadImageToPublicServer 0)
            user.accessToken caption false)) user.accessToken)],
       Except.ok (respId (Call.publish user.id
         (respId (Call.itemContainer user.id (uploadImageToPublicServer 0)
           user.accessToken caption false)) user.accessToken))) := by
  simp [publishCarouselToInstagram, uploadLoop_eq, h1, expectedUrls,
        createItemContainer, publishMedia, hreal, henv]

theorem run_real_multi (env : Env) (respId : Call → String) (user : InstagramUser)
    (blobs : List Blob) (caption : String)
    (hreal : user.id ≠ MOCK_USER_ID) (henv : ∀ c, env c = Except.ok (respId c))
    (hn : blobs.length ≠ 1) :
    publishCarouselToInstagram env user blobs caption =
      (expectedUploadEvents blobs.length 0 blobs.length ++
        (realItemEvents user.id user.accessToken (expectedUrls blobs.length 0) 0 ++
          Event.progress "Creating carousel object..." ::
          Event.fetch (Call.carouselContainer user.id
            ((expectedUrls blobs.length 0).map fun u =>
              respId (itemCall user.id u user.accessToken)) user.accessToken caption) ::
          Event.progress "Finalizing publication..." ::
          [Event.fetch (Call.publish user.id
            (respId (Call.carouselContainer user.id
              ((expectedUrls blobs.length 0).map fun u =>
                respId (itemCall user.id u user.accessToken)) user.accessToken caption))
            user.accessToken)]),
       Except.ok (respId (Call.publish user.id
         (respId (Call.carouselContainer user.id
           ((expectedUrls blobs.length 0).map fun u =>
             respId (itemCall user.id u user.accessToken)) user.accessToken caption))
         user.accessToken))) := by
  simp [publishCarouselToInstagram, uploadLoop_eq, expectedUrls_length, hn,
        itemLoop_real env respId user.id user.accessToken hreal henv,
        createCarouselContainer, publishMedia, hreal, henv]

theorem run_mock_single (env : Env) (user : InstagramUser) (blobs : List Blob)
    (caption : String) (hid : user.id = MOCK_USER_ID) (h1 : blobs.length = 1) :
    publishCarouselToInstagram env user blobs caption =
      (expectedUploadEvents 1 0 1 ++
        Event.progress "Creating media container..." ::
        [Event.progress "Finalizing publication..."],
       Except.ok ("published_media_" ++ toString 2)) := by
  simp [publishCarouselToInstagram, uploadLoop_eq, h1, expectedUrls,
        createItemContainer, publishMedia, hid]

theorem run_mock_multi (env : Env) (user : InstagramUser) (blobs : List Blob)
    (caption : String) (hid : user.id = MOCK_USER_ID) (hn : blobs.length ≠ 1) :
    publishCarouselToInstagram env user blobs caption =
      (expectedUploadEvents blobs.length 0 blobs.length ++
        (mockItemEvents (expectedUrls blobs.length 0) 0 ++
          [Event.progress "Creating carousel object...",
           Event.progress "Finalizing publication..."]),
       Except.ok ("published_media_" ++
         toString (blobs.length + blobs.length + 1))) := by
  simp [publishCarouselToInstagram, uploadLoop_eq, expectedUrls_length, hn,
        itemLoop_mock, createCarouselContainer, publishMedia, hid]

/-! ## Publishing workflow claims -/

/-- C1: on a real (non-sentinel) account with N ≥ 2 assets and a remote that
answers every call successfully, the run issues exactly N item-container
calls — one per uploaded image URL, in upload order — followed by exactly one
carousel-root call whose children-id list is the item-container ids in that
same order, followed by exactly one publish call on the carousel-root id, and
no other network call; the input-blob order is preserved positionally through
upload, item-container creation and the children list. -/
theorem c1_carousel_call_sequence (env : Env) (respId : Call → String)
    (user : InstagramUser) (blobs : List Blob) (caption : String)
    (hreal : user.id ≠ MOCK_USER_ID) (henv : ∀ c, env c = Except.ok (respId c))
    (hN : 2 ≤ blobs.length) :
    fetchCalls (publishCarouselToInstagram env user blobs caption).1 =
      expectedItemCalls user.id user.accessToken (expectedUrls blobs.length 0) ++
        [Call.carouselContainer user.id
          ((expectedItemCalls user.id user.accessToken
            (expectedUrls blobs.length 0)).map respId) user.accessToken caption,
         Call.publish user.id
           (respId (Call.carouselContainer user.id
             ((expectedItemCalls user.id user.accessToken
               (expectedUrls blobs.length 0)).map respId) user.accessToken caption))
           user.accessToken]
    ∧ (expectedItemCalls user.id user.accessToken
        (expectedUrls blobs.length 0)).length = blobs.length
    ∧ (publishCarouselToInstagram env user blobs caption).2 =
      Except.ok (respId (Call.publish user.id
        (respId (Call.carouselContainer user.id
          ((expectedItemCalls user.id user.accessToken
            (expectedUrls blobs.length 0)).map respId) user.accessToken caption))
        user.accessToken)) := by
  have hn : blobs.length ≠ 1 := by omega
  rw [run_real_multi env respId user blobs caption hreal henv hn]
  refine ⟨?_, ?_, ?_⟩
  · simp only [fetchCalls_append, fetchCalls_expectedUploadEvents,
      fetchCalls_realItemEvents]
    simp [fetchCalls, expectedItemCalls, List.map_map, Function.comp_def]
  · simp [expectedItemCalls, expectedUrls_length]
  · simp [expectedItemCalls, List.map_map, Function.comp_def]

theorem c1_witness :
    userReal.id ≠ MOCK_USER_ID ∧ 2 ≤ ([⟨1⟩, ⟨2⟩] : List Blob).length ∧
      (fetchCalls (publishCarouselToInstagram envOk userReal [⟨1⟩, ⟨2⟩] "cap").1 =
        expectedItemCalls userReal.id userReal.accessToken (expectedUrls 2 0) ++
          [Call.carouselContainer userReal.id
            ((expectedItemCalls userReal.id userReal.accessToken
              (expectedUrls 2 0)).map respId0) userReal.accessToken "cap",
           Call.publish userReal.id
             (respId0 (Call.carouselContainer userReal.id
               ((expectedItemCalls userReal.id userReal.accessToken
                 (expectedUrls 2 0)).map respId0) userReal.accessToken "cap"))
             userReal.accessToken]
      ∧ (expectedItemCalls userReal.id userReal.accessToken
          (expectedUrls 2 0)).length = 2
      ∧ (publishCarouselToInstagram envOk userReal [⟨1⟩, ⟨2⟩] "cap").2 =
        Except.ok (respId0 (Call.publish userReal.id
          (respId0 (Call.carouselContainer userReal.id
            ((expectedItemCalls userReal.id userReal.accessToken
              (expectedUrls 2 0)).map respId0) userReal.accessToken "cap"))
          userReal.accessToken))) :=
  ⟨by decide, by decide,
    c1_carousel_call_sequence envOk respId0 userReal [⟨1⟩, ⟨2⟩] "cap"
      (by decide) (fun c => rfl) (by decide)⟩

/-- C2: on a real account with exactly one asset, exactly one
container-creation call occurs before finalize — a non-carousel media
container carrying the caption (`is_carousel_item` not set) — no
carousel-root call is ever made on this path, and the publish call uses that
container's id as the creation id. -/
theorem c2_single_image_path (env : Env) (respId : Call → String)
    (user : InstagramUser) (blobs : List Blob) (caption : String)
    (hreal : user.id ≠ MOCK_USER_ID) (henv : ∀ c, env c = Except.ok (respId c))
    (h1 : blobs.length = 1) :
    fetchCalls (publishCarouselToInstagram env user blobs caption).1 =
      [Call.itemContainer user.id (uploadImageToPublicServer 0)
        user.accessToken caption false,
       Call.publish user.id
         (respId (Call.itemContainer user.id (uploadImageToPublicServer 0)
           user.accessToken caption false)) user.accessToken]
    ∧ (publishCarouselToInstagram env user blobs caption).2 =
      Except.ok (respId (Call.publish user.id
        (respId (Call.itemContainer user.id (uploadImageToPublicServer 0)
          user.accessToken caption false)) user.accessToken)) := by
  rw [run_real_single env respId user blobs caption hreal henv h1]
  constructor
  · rw [fetchCalls_append, fetchCalls_expectedUploadEvents]
    simp [fetchCalls]
  · rfl

theorem c2_witness :
    userReal.id ≠ MOCK_USER_ID ∧ ([⟨7⟩] : List Blob).length = 1 ∧
      (fetchCalls (publishCarouselToInstagram envOk userReal [⟨7⟩] "cap").1 =
        [Call.itemContainer userReal.id (uploadImageToPublicServer 0)
          userReal.accessToken "cap" false,
         Call.publish userReal.id
           (respId0 (Call.itemContainer userReal.id (uploadImageToPublicServer 0)
             userReal.accessToken "cap" false)) userReal.accessToken]
      ∧ (publishCarouselToInstagram envOk userReal [⟨7⟩] "cap").2 =
        Except.ok (respId0 (Call.publish userReal.id
          (respId0 (Call.itemContainer userReal.id (uploadImageToPublicServer 0)
            userReal.accessToken "cap" false)) userReal.accessToken))) :=
  ⟨by decide, by decide,
    c2_single_image_path envOk respId0 userReal [⟨7⟩] "cap"
      (by decide) (fun c => rfl) (by decide)⟩

/-- C4: a run on the sentinel account issues no network call at any step,
yet invokes the progress sink exactly as many times, with the same messages
in the same order, as the same run on a real account whose remote answers
every call successfully; each mock step short-circuits to a fabricated id
and the run ends in success. -/
theorem c4_mock_no_network_same_progress (envReal envMock : Env)
    (respId : Call → String) (user : InstagramUser) (blobs : List Blob)
    (caption : String) (hreal : user.id ≠ MOCK_USER_ID)
    (henv : ∀ c, envReal c = Except.ok (respId c)) :
    fetchCalls (publishCarouselToInstagram envMock
      { user with id := MOCK_USER_ID } blobs caption).1 = []
    ∧ progressMsgs (publishCarouselToInstagram envMock
        { user with id := MOCK_USER_ID } blobs caption).1 =
      progressMsgs (publishCarouselToInstagram envReal user blobs caption).1
    ∧ ∃ fabricatedId, (publishCarouselToInstagram envMock
        { user with id := MOCK_USER_ID } blobs caption).2 =
          Except.ok fabricatedId := by
  by_cases h1 : blobs.length = 1
  · rw [run_mock_single envMock { user with id := MOCK_USER_ID } blobs caption
          (by simp) h1,
        run_real_single envReal respId user blobs caption hreal henv h1]
    refine ⟨?_, ?_, ⟨_, rfl⟩⟩
    · rw [fetchCalls_append, fetchCalls_expectedUploadEvents]
      simp [fetchCalls]
    · simp only [progressMsgs_append]
      simp [progressMsgs]
  · rw [run_mock_multi envMock { user with id := MOCK_USER_ID } blobs caption
          (by simp) h1,
        run_real_multi envReal respId user blobs caption hreal henv h1]
    refine ⟨?_, ?_, ⟨_, rfl⟩⟩
    · simp only [fetchCalls_append, fetchCalls_expectedUploadEvents,
        fetchCalls_mockItemEvents]
      simp [fetchCalls]
    · simp only [progressMsgs_append, progressMsgs_realItemEvents_eq_mock]
      simp [progressMsgs]

theorem c4_witness :
    userReal.id ≠ MOCK_USER_ID ∧
      (fetchCalls (publishCarouselToInstagram envReject
        { userReal with id := MOCK_USER_ID } [⟨1⟩, ⟨2⟩] "cap").1 = []
      ∧ progressMsgs (publishCarouselToInstagram envReject
          { userReal with id := MOCK_USER_ID } [⟨1⟩, ⟨2⟩] "cap").1 =
        progressMsgs (publishCarouselToInstagram envOk userReal [⟨1⟩, ⟨2⟩] "cap").1
      ∧ ∃ fabricatedId, (publishCarouselToInstagram envReject
          { userReal with id := MOCK_USER_ID } [⟨1⟩, ⟨2⟩] "cap").2 =
            Except.ok fabricatedId) :=
  ⟨by decide,
    c4_mock_no_network_same_progress envOk envReject respId0 userReal
      [⟨1⟩, ⟨2⟩] "cap" (by decide) (fun c => rfl)⟩

/-- C8 (counterexample): invoked on the sentinel account with an empty asset
list (and a remote that would reject everything — it is never consulted),
the run does NOT terminate in failure: it walks the carousel path with zero
children, every mock step fabricates an id, and the result is a successful
publish result. -/
theorem c8_counterexample :
    (publishCarouselToInstagram envReject mockUser [] "cap").2 =
      Except.ok "published_media_1" := by decide

/-- C8 (amended): with an empty asset list the run does not crash, but it
does not produce a trivial no-op failure either: it follows the multi-image
path with an empty children list, and on the sentinel account it terminates
in SUCCESS with a fabricated publish id, issuing no network call. -/
theorem c8_empty_assets_no_failure (env : Env) (user : InstagramUser)
    (caption : String) (hid : user.id = MOCK_USER_ID) :
    (∃ fabricatedId, (publishCarouselToInstagram env user [] caption).2 =
      Except.ok fabricatedId)
    ∧ fetchCalls (publishCarouselToInstagram env user [] caption).1 = [] := by
  rw [run_mock_multi env user [] caption hid (by simp)]
  refine ⟨⟨_, rfl⟩, ?_⟩
  simp [fetchCalls, expectedUploadEvents, mockItemEvents, expectedUrls]

theorem c8_witness :
    mockUser.id = MOCK_USER_ID ∧
      ((∃ fabricatedId,
        (publishCarouselToInstagram envReject mockUser [] "cap").2 =
          Except.ok fabricatedId)
      ∧ fetchCalls (publishCarouselToInstagram envReject mockUser [] "cap").1 = []) :=
  ⟨rfl, c8_empty_assets_no_failure envReject mockUser "cap" rfl⟩

/-! ## Failure discipline (claim C3) -/

theorem traceOk_nil (env : Env) : TraceOk env [] :=
  fun c hc => absurd hc (List.not_mem_nil c)

theorem traceOk_append {env : Env} {a b : List Call} (ha : TraceOk env a)
    (hb : TraceOk env b) : TraceOk env (a ++ b) := by
  intro c hc
  rcases List.mem_append.mp hc with h | h
  exacts [ha c h, hb c h]

theorem fetchCalls_nil : fetchCalls [] = [] := rfl

theorem fetchCalls_cons_progress (m : String) (evs : List Event) :
    fetchCalls (Event.progress m :: evs) = fetchCalls evs := by
  simp [fetchCalls]

theorem fetchCalls_cons_fetch (c : Call) (evs : List Event) :
    fetchCalls (Event.fetch c :: evs) = c :: fetchCalls evs := by
  simp [fetchCalls]

theorem runSpec_prepend {α : Type} (env : Env) (pre evs : List Event)
    (res : Except String α) (hpre : TraceOk env (fetchCalls pre))
    (h : RunSpec env evs res) : RunSpec env (pre ++ evs) res := by
  cases res with
  | ok a =>
    have h' : TraceOk env (fetchCalls evs) := h
    show TraceOk env (fetchCalls (pre ++ evs))
    rw [fetchCalls_append]
    exact traceOk_append hpre h'
  | error m =>
    obtain ⟨evs1, cf, heq, herr, hok⟩ := h
    refine ⟨pre ++ evs1, cf, ?_, herr, ?_⟩
    · rw [heq, List.append_assoc]
    · rw [fetchCalls_append]
      exact traceOk_append hpre hok

theorem itemLoop_runspec (env : Env) (userId accessToken : String) :
    ∀ (urls : List String) (i ctr : Nat),
      RunSpec env (itemLoop env userId accessToken urls i ctr).1
        (itemLoop env userId accessToken urls i ctr).2.1 := by
  intro urls
  induction urls with
  | nil =>
    intro i ctr
    exact traceOk_nil env
  | cons u rest ih =>
    intro i ctr
    by_cases hm : userId = MOCK_USER_ID
    · rw [hm, itemLoop_mock]
      show TraceOk env (fetchCalls (mockItemEvents (u :: rest) i))
      rw [fetchCalls_mockItemEvents]
      exact traceOk_nil env
    · cases henvc : env (Call.itemContainer userId u accessToken "" true) with
      | error m =>
        simp only [itemLoop, createItemContainer, if_neg hm, henvc]
        refine ⟨[Event.progress (prepMsg (i + 1))],
          Call.itemContainer userId u accessToken "" true, rfl, henvc, ?_⟩
        rw [fetchCalls_cons_progress, fetchCalls_nil]
        exact traceOk_nil env
      | ok cid =>
        simp only [itemLoop, createItemContainer, if_neg hm, henvc]
        cases hrec : (itemLoop env userId accessToken rest (i + 1) ctr).2.1 with
        | error m =>
          simp only [hrec]
          have ihre := ih (i + 1) ctr
          rw [hrec] at ihre
          obtain ⟨evs1, cf, heq, herr, hok⟩ := ihre
          refine ⟨Event.progress (prepMsg (i + 1)) ::
            Event.fetch (Call.itemContainer userId u accessToken "" true) :: evs1,
            cf, by simp [heq], herr, ?_⟩
          rw [fetchCalls_cons_progress, fetchCalls_cons_fetch]
          intro c hc
          rcases List.mem_cons.mp hc with hc | hc
          · subst hc; exact ⟨cid, henvc⟩
          · exact hok c hc
        | ok ids =>
          simp only [hrec]
          show TraceOk env (fetchCalls (Event.progress (prepMsg (i + 1)) ::
            Event.fetch (Call.itemContainer userId u accessToken "" true) ::
            (itemLoop env userId accessToken rest (i + 1) ctr).1))
          rw [fetchCalls_cons_progress, fetchCalls_cons_fetch]
          intro c hc
          rcases List.mem_cons.mp hc with hc | hc
          · subst hc; exact ⟨cid, henvc⟩
          · have ihre := ih (i + 1) ctr
            rw [hrec] at ihre
            exact ihre c hc

theorem publish_runspec (env : Env) (user : InstagramUser) (blobs : List Blob)
    (caption : String) :
    RunSpec env (publishCarouselToInstagram env user blobs caption).1
      (publishCarouselToInstagram env user blobs caption).2 := by
  by_cases hm : user.id = MOCK_USER_ID
  · by_cases h1 : blobs.length = 1
    · rw [run_mock_single env user blobs caption hm h1]
      show TraceOk env (fetchCalls (expectedUploadEvents 1 0 1 ++
        Event.progress "Creating media container..." ::
        [Event.progress "Finalizing publication..."]))
      rw [fetchCalls_append, fetchCalls_expectedUploadEvents,
        fetchCalls_cons_progress, fetchCalls_cons_progress, fetchCalls_nil]
      exact traceOk_nil env
    · rw [run_mock_multi env user blobs caption hm h1]
      show TraceOk env (fetchCalls (expectedUploadEvents blobs.length 0 blobs.length ++
        (mockItemEvents (expectedUrls blobs.length 0) 0 ++
          [Event.progress "Creating carousel object...",
           Event.progress "Finalizing publication..."])))
      rw [fetchCalls_append, fetchCalls_expectedUploadEvents, fetchCalls_append,
        fetchCalls_mockItemEvents, fetchCalls_cons_progress,
        fetchCalls_cons_progress, fetchCalls_nil]
      exact traceOk_nil env
  · have hup : TraceOk env (fetchCalls (expectedUploadEvents blobs.length 0 blobs.length)) := by
      rw [fetchCalls_expectedUploadEvents]
      exact traceOk_nil env
    simp only [publishCarouselToInstagram, uploadLoop_eq]
    by_cases h1 : (expectedUrls blobs.length 0).length = 1
    · rw [if_pos h1]
      simp only [createItemContainer, if_neg hm, publishMedia]
      cases henvc : env (Call.itemContainer user.id
          ((expectedUrls blobs.length 0).headD "") user.accessToken caption false) with
      | error m =>
        simp only [henvc]
        refine ⟨expectedUploadEvents blobs.length 0 blobs.length ++
          [Event.progress "Creating media container..."],
          Call.itemContainer user.id ((expectedUrls blobs.length 0).headD "")
            user.accessToken caption false, by simp, henvc, ?_⟩
        rw [fetchCalls_append, fetchCalls_expectedUploadEvents,
          fetchCalls_cons_progress, fetchCalls_nil]
        exact traceOk_nil env
      | ok cid =>
        simp only [henvc]
        cases henvp : env (Call.publish user.id cid user.accessToken) with
        | error m =>
          refine ⟨expectedUploadEvents blobs.length 0 blobs.length ++
            [Event.progress "Creating media container...",
             Event.fetch (Call.itemContainer user.id
               ((expectedUrls blobs.length 0).headD "") user.accessToken caption false),
             Event.progress "Finalizing publication..."],
            Call.publish user.id cid user.accessToken, by simp, henvp, ?_⟩
          rw [fetchCalls_append, fetchCalls_expectedUploadEvents,
            fetchCalls_cons_progress, fetchCalls_cons_fetch,
            fetchCalls_cons_progress, fetchCalls_nil]
          intro c hc
          rcases List.mem_cons.mp hc with hc | hc
          · subst hc; exact ⟨cid, henvc⟩
          · exact absurd hc (List.not_mem_nil c)
        | ok pid =>
          intro c hc
          simp only [fetchCalls_append, fetchCalls_expectedUploadEvents] at hc
          simp [fetchCalls] at hc
          rcases hc with hc | hc
          · subst hc; exact ⟨cid, by simpa using henvc⟩
          · subst hc; exact ⟨pid, by simpa using henvp⟩
    · rw [if_neg h1]
      have ihre := itemLoop_runspec env user.id user.accessToken
        (expectedUrls blobs.length 0) 0 (0 + blobs.length)
      rcases hLeq : itemLoop env user.id user.accessToken
          (expectedUrls blobs.length 0) 0 (0 + blobs.length) with ⟨itEvs, resIds, ctr1⟩
      rw [hLeq] at ihre
      cases resIds with
      | error m =>
        exact runSpec_prepend env _ _ _ hup ihre
      | ok ids =>
        have hitems : TraceOk env (fetchCalls itEvs) := ihre
        simp only [createCarouselContainer, if_neg hm, publishMedia]
        cases henvr : env (Call.carouselContainer user.id ids
            user.accessToken caption) with
        | error m =>
          refine ⟨expectedUploadEvents blobs.length 0 blobs.length ++ itEvs ++
            [Event.progress "Creating carousel object..."],
            Call.carouselContainer user.id ids user.accessToken caption,
            by simp, henvr, ?_⟩
          rw [fetchCalls_append, fetchCalls_append, fetchCalls_expectedUploadEvents,
            fetchCalls_cons_progress, fetchCalls_nil]
          intro c hc
          rcases List.mem_append.mp hc with hc | hc
          · rcases List.mem_append.mp hc with hc | hc
            · exact absurd hc (List.not_mem_nil c)
            · exact hitems c hc
          · exact absurd hc (List.not_mem_nil c)
        | ok rootId =>
          dsimp only
          cases henvp : env (Call.publish user.id rootId user.accessToken) with
          | error m =>
            refine ⟨expectedUploadEvents blobs.length 0 blobs.length ++ itEvs ++
              [Event.progress "Creating carousel object...",
               Event.fetch (Call.carouselContainer user.id ids user.accessToken caption),
               Event.progress "Finalizing publication..."],
              Call.publish user.id rootId user.accessToken, by simp, henvp, ?_⟩
            rw [fetchCalls_append, fetchCalls_append, fetchCalls_expectedUploadEvents,
              fetchCalls_cons_progress, fetchCalls_cons_fetch,
              fetchCalls_cons_progress, fetchCalls_nil]
            intro c hc
            rcases List.mem_append.mp hc with hc | hc
            · rcases List.mem_append.mp hc with hc | hc
              · exact absurd hc (List.not_mem_nil c)
              · exact hitems c hc
            · rcases List.mem_cons.mp hc with hc | hc
              · subst hc; exact ⟨rootId, henvr⟩
              · exact absurd hc (List.not_mem_nil c)
          | ok pid =>
            intro c hc
            simp only [fetchCalls_append, fetchCalls_expectedUploadEvents,
              fetchCalls_cons_progress, fetchCalls_cons_fetch, fetchCalls_nil,
              List.nil_append, List.append_nil] at hc
            rcases List.mem_append.mp hc with hc | hc
            · rcases List.mem_append.mp hc with hc | hc
              · exact hitems c hc
              · rcases List.mem_cons.mp hc with hc | hc
                · subst hc; exact ⟨rootId, henvr⟩
                · exact absurd hc (List.not_mem_nil c)
            · rcases List.mem_cons.mp hc with hc | hc
              · subst hc; exact ⟨pid, henvp⟩
              · exact absurd hc (List.not_mem_nil c)

/-- C3: if any issued remote call answers with a structured error, the run
aborts there: the event trace ends at that (single, first-failing) call, no
later upload / container-creation / publish call or progress notification
occurs, every call issued before it had succeeded, and the caller observes
exactly the remote error's message; conversely, a run whose trace contains a
call the remote rejects cannot end in success and surfaces that message. -/
theorem c3_first_error_aborts (env : Env) (user : InstagramUser)
    (blobs : List Blob) (caption : String) :
    (∀ m, (publishCarouselToInstagram env user blobs caption).2 = Except.error m →
      ∃ evs c, (publishCarouselToInstagram env user blobs caption).1 =
          evs ++ [Event.fetch c]
        ∧ env c = Except.error m
        ∧ ∀ c2 ∈ fetchCalls evs, ∃ id, env c2 = Except.ok id)
    ∧ ∀ c m, c ∈ fetchCalls (publishCarouselToInstagram env user blobs caption).1 →
        env c = Except.error m →
        (publishCarouselToInstagram env user blobs caption).2 = Except.error m := by
  have hspec := publish_runspec env user blobs caption
  constructor
  · intro m hres
    rw [hres] at hspec
    exact hspec
  · intro c m hc herr
    cases hres : (publishCarouselToInstagram env user blobs caption).2 with
    | ok a =>
      rw [hres] at hspec
      obtain ⟨id, hid⟩ := hspec c hc
      rw [herr] at hid
      exact absurd hid (by simp)
    | error m' =>
      rw [hres] at hspec
      obtain ⟨evs, cf, heq, herrf, hok⟩ := hspec
      rw [heq, fetchCalls_append, fetchCalls_cons_fetch, fetchCalls_nil] at hc
      rcases List.mem_append.mp hc with hc | hc
      · obtain ⟨id, hid⟩ := hok c hc
        rw [herr] at hid
        exact absurd hid (by simp)
      · rcases List.mem_cons.mp hc with hc | hc
        · subst hc
          rw [herr] at herrf
          rw [Except.error.inj herrf]
        · exact absurd hc (List.not_mem_nil c)

theorem c3_witness :
    ((publishCarouselToInstagram envReject userReal [⟨5⟩] "cap").2 =
      Except.error "Invalid parameter") ∧
    ∃ evs c, (publishCarouselToInstagram envReject userReal [⟨5⟩] "cap").1 =
        evs ++ [Event.fetch c]
      ∧ envReject c = Except.error "Invalid parameter"
      ∧ ∀ c2 ∈ fetchCalls evs, ∃ id, envReject c2 = Except.ok id :=
  ⟨by decide, (c3_first_error_aborts envReject userReal [⟨5⟩] "cap").1
    "Invalid parameter" (by decide)⟩

end Carrossel
